import Mathlib

/-!
Shallow embedding of the yamori test harness core (src/test.rs, src/app.rs,
src/main.rs) and proofs about it.

Strings are modelled as `List Char`.  Subprocess execution, the shell, and
the external `similar` diff crate are modelled by an explicit environment
(`Env`) of oracles; everything else is translated directly from the source.
-/

set_option maxRecDepth 4096

abbrev Str := List Char

/-- `starts_with n l` holds when `n` is an initial segment of `l`
(the primitive underlying Rust's `str::find`/`str::contains` as used here). -/
def starts_with : Str → Str → Bool
  | [], _ => true
  | _ :: _, [] => false
  | a :: as, b :: bs => a == b && starts_with as bs

/-- Index of the first occurrence of `n` in the string, mirroring Rust's
`str::find(&str)` (byte offsets coincide with char offsets for the ASCII
tokens involved). -/
def findSub (n : Str) : Str → Option Nat
  | [] => if starts_with n [] then some 0 else none
  | c :: rest => if starts_with n (c :: rest) then some 0 else (findSub n rest).map (· + 1)

/-- Rust's `str::contains(&str)`. -/
def contains_sub (hay needle : Str) : Bool := (findSub needle hay).isSome

/-- Token `{{#if release}}` of `process_template` (src/test.rs). -/
def relTok : Str := "\x7b\x7b#if release\x7d\x7d".data

/-- Token `{{#if build.release}}` of `process_template` (src/test.rs). -/
def buildRelTok : Str := "\x7b\x7b#if build.release\x7d\x7d".data

/-- Token `{{else}}` of `process_template` (src/test.rs). -/
def elseTok : Str := "\x7b\x7belse\x7d\x7d".data

/-- Token `{{/if}}` of `process_template` (src/test.rs). -/
def endTok : Str := "\x7b\x7b/if\x7d\x7d".data

/-- The `while let Some(start_pos) = template[current_pos..].find(release_template)`
loop of `process_template` for the `{{#if release}}...{{/if}}` form, written as a
recursion over the still unprocessed suffix `rem`; `fuel` bounds the number of
iterations (each iteration consumes at least the two tokens, so
`fuel = rem.length` never runs out). -/
def form1 : Nat → Str → Bool → Str
  | 0, rem, _ => rem
  | fuel + 1, rem, is_release =>
    match findSub relTok rem with
    | none => rem
    | some start_pos =>
      match findSub endTok (rem.drop start_pos) with
      | none => rem.take start_pos ++ rem.drop start_pos
      | some end_pos =>
        rem.take start_pos ++
          (if is_release then
            ((rem.drop start_pos).drop relTok.length).take (end_pos - relTok.length)
          else []) ++
          form1 fuel ((rem.drop start_pos).drop (end_pos + endTok.length)) is_release

/-- The loop of `process_template` for the
`{{#if build.release}}...{{else}}...{{/if}}` form, same conventions as `form1`. -/
def form2 : Nat → Str → Bool → Str
  | 0, rem, _ => rem
  | fuel + 1, rem, is_release =>
    match findSub buildRelTok rem with
    | none => rem
    | some start_pos =>
      match findSub elseTok (rem.drop start_pos) with
      | none => rem.take start_pos ++ rem.drop start_pos
      | some else_pos =>
        match findSub endTok ((rem.drop start_pos).drop else_pos) with
        | none => rem.take start_pos ++ rem.drop start_pos
        | some end_pos =>
          rem.take start_pos ++
            (if is_release then
              ((rem.drop start_pos).drop buildRelTok.length).take (else_pos - buildRelTok.length)
            else
              (((rem.drop start_pos).drop else_pos).drop elseTok.length).take
                (end_pos - elseTok.length)) ++
            form2 fuel (((rem.drop start_pos).drop else_pos).drop (end_pos + endTok.length))
              is_release

/-- `process_template` from src/test.rs: resolves the two conditional markup
forms against the `is_release` flag; strings without markup are returned
unchanged. -/
def process_template (template : Str) (is_release : Bool) : Str :=
  if contains_sub template relTok then
    form1 template.length template is_release
  else if contains_sub template buildRelTok then
    form2 template.length template is_release
  else
    template

/-- Rust's `str::trim`: drop leading and trailing whitespace of the whole
string. -/
def trimChars (s : Str) : Str :=
  ((s.dropWhile Char.isWhitespace).reverse.dropWhile Char.isWhitespace).reverse

section FindLemmas

theorem starts_with_iff (n l : Str) : starts_with n l = true ↔ ∃ t, n ++ t = l := by
  induction n generalizing l with
  | nil => simp [starts_with]
  | cons c cs ih =>
    cases l with
    | nil => simp [starts_with]
    | cons d ds =>
      simp only [starts_with, Bool.and_eq_true, beq_iff_eq, ih]
      constructor
      · rintro ⟨rfl, t, rfl⟩; exact ⟨t, rfl⟩
      · rintro ⟨t, h⟩; injection h with h1 h2; exact ⟨h1, t, h2⟩

theorem starts_with_self_append (n l : Str) : starts_with n (n ++ l) = true :=
  (starts_with_iff n (n ++ l)).2 ⟨l, rfl⟩

/-- No occurrence of `n` begins inside `m`, even allowing the match to run on
into an arbitrary continuation. -/
def NoMatchIn (n m : Str) : Prop :=
  ∀ q, q < m.length → ∀ r, starts_with n (m.drop q ++ r) = false

theorem findSub_self_append (n r : Str) : findSub n (n ++ r) = some 0 := by
  cases h : n ++ r with
  | nil => cases n <;> simp_all [findSub, starts_with]
  | cons c t =>
    rw [findSub, ← h, starts_with_self_append]
    rfl

theorem findSub_append_noMatch {n m : Str} (h : NoMatchIn n m) (l : Str) :
    findSub n (m ++ l) = (findSub n l).map (· + m.length) := by
  induction m with
  | nil =>
    rw [List.nil_append]
    cases findSub n l <;> simp
  | cons c m' ih =>
    have h0 : starts_with n (c :: (m' ++ l)) = false := by
      have := h 0 (by simp) l
      simpa using this
    have h' : NoMatchIn n m' := by
      intro q hq r
      have := h (q + 1) (by simpa using Nat.succ_lt_succ hq) r
      simpa using this
    rw [List.cons_append, findSub, h0]
    rw [if_neg (show ¬(false = true) by simp)]
    rw [ih h']
    cases findSub n l <;> simp [Nat.add_assoc]

theorem findSub_eq_none_of_noMatch {n l : Str} (hn : n ≠ []) (h : NoMatchIn n l) :
    findSub n l = none := by
  induction l with
  | nil =>
    obtain ⟨c, cs, rfl⟩ : ∃ c cs, n = c :: cs := by
      cases n with
      | nil => exact absurd rfl hn
      | cons c cs => exact ⟨c, cs, rfl⟩
    simp [findSub, starts_with]
  | cons c rest ih =>
    have h0 : starts_with n (c :: rest) = false := by
      have := h 0 (by simp) []
      simpa using this
    have h' : NoMatchIn n rest := by
      intro q hq r
      have := h (q + 1) (by simpa using Nat.succ_lt_succ hq) r
      simpa using this
    rw [findSub, h0]
    simp [ih h']

theorem findSub_block {n m : Str} (h : NoMatchIn n m) (r : Str) :
    findSub n (m ++ (n ++ r)) = some m.length := by
  rw [findSub_append_noMatch h, findSub_self_append]
  simp

/-- If `n` begins with `'{'` and `m` is brace-free, no occurrence of `n`
begins inside `m`. -/
theorem noMatchIn_of_brace_free {n m : Str} (hn : ∃ n', n = '{' :: n')
    (hm : '{' ∉ m) : NoMatchIn n m := by
  obtain ⟨n', rfl⟩ := hn
  intro q hq r
  rw [List.drop_eq_getElem_cons hq]
  by_contra hsw
  have hsw' : starts_with ('{' :: n') (m[q] :: (m.drop (q + 1) ++ r)) = true := by
    revert hsw
    rw [List.cons_append]
    cases starts_with ('{' :: n') (m[q] :: (m.drop (q + 1) ++ r)) <;> simp
  obtain ⟨t, ht⟩ := (starts_with_iff _ _).1 hsw'
  have : m[q] = '{' := by
    have := congrArg (List.get? · 0) ht
    simpa using this.symm
  exact hm (this ▸ List.getElem_mem hq)

/-- Pointwise character clash between `n` and `m` within the overlap,
which rules out a match no matter the continuation. -/
def hasClash (n m : Str) : Bool :=
  (List.range (min n.length m.length)).any fun i => decide (n.get? i ≠ m.get? i)

theorem noMatchIn_of_clash {n m : Str}
    (h : ∀ q, q < m.length → hasClash n (m.drop q) = true) : NoMatchIn n m := by
  intro q hq r
  obtain ⟨i, hi, hne⟩ : ∃ i, i < min n.length (m.drop q).length ∧ n.get? i ≠ (m.drop q).get? i := by
    have := h q hq
    simp only [hasClash, List.any_eq_true, List.mem_range, decide_eq_true_eq] at this
    exact this
  by_contra hsw
  have hsw' : starts_with n ((m.drop q) ++ r) = true := by
    revert hsw
    cases starts_with n ((m.drop q) ++ r) <;> simp
  obtain ⟨t, ht⟩ := (starts_with_iff _ _).1 hsw'
  apply hne
  have h1 : (n ++ t).get? i = n.get? i := List.get?_append (by omega)
  have h2 : ((m.drop q) ++ r).get? i = (m.drop q).get? i := List.get?_append (by omega)
  rw [← h1, ht, h2]

theorem noMatchIn_append {n m1 m2 : Str} (h1 : NoMatchIn n m1) (h2 : NoMatchIn n m2) :
    NoMatchIn n (m1 ++ m2) := by
  intro q hq r
  rcases Nat.lt_or_ge q m1.length with hlt | hge
  · have : (m1 ++ m2).drop q = m1.drop q ++ m2 := by
      rw [List.drop_append_eq_append_drop, Nat.sub_eq_zero_of_le (Nat.le_of_lt hlt), List.drop_zero]
    rw [this, List.append_assoc]
    exact h1 q hlt (m2 ++ r)
  · have hq2 : q - m1.length < m2.length := by
      simp only [List.length_append] at hq; omega
    have : (m1 ++ m2).drop q = m2.drop (q - m1.length) := by
      rw [List.drop_append_eq_append_drop, List.drop_eq_nil_of_le hge, List.nil_append]
    rw [this]
    exact h2 (q - m1.length) hq2 r

end FindLemmas

section TemplateLemmas

theorem relTok_head : ∃ n', relTok = '{' :: n' := ⟨"\x7b#if release\x7d\x7d".data, rfl⟩

theorem buildRelTok_head : ∃ n', buildRelTok = '{' :: n' := ⟨"\x7b#if build.release\x7d\x7d".data, rfl⟩

theorem elseTok_head : ∃ n', elseTok = '{' :: n' := ⟨"\x7belse\x7d\x7d".data, rfl⟩

theorem endTok_head : ∃ n', endTok = '{' :: n' := ⟨"\x7b/if\x7d\x7d".data, rfl⟩

theorem findSub_none_brace_free {tok m : Str} (h : ∃ n', tok = '{' :: n') (hm : '{' ∉ m) :
    findSub tok m = none := by
  obtain ⟨n', htok⟩ := h
  exact findSub_eq_none_of_noMatch (by simp [htok]) (noMatchIn_of_brace_free ⟨n', htok⟩ hm)

theorem nm_endTok_relTok : NoMatchIn endTok relTok := noMatchIn_of_clash (by decide)

theorem nm_elseTok_buildRelTok : NoMatchIn elseTok buildRelTok := noMatchIn_of_clash (by decide)

theorem nm_endTok_elseTok : NoMatchIn endTok elseTok := noMatchIn_of_clash (by decide)

theorem nm_relTok_buildRelTok : NoMatchIn relTok buildRelTok := noMatchIn_of_clash (by decide)

theorem nm_relTok_elseTok : NoMatchIn relTok elseTok := noMatchIn_of_clash (by decide)

theorem nm_relTok_endTok : NoMatchIn relTok endTok := noMatchIn_of_clash (by decide)

theorem form1_step_found (fuel : Nat) (rem : Str) (rel : Bool) (p q : Nat)
    (h1 : findSub relTok rem = some p) (h2 : findSub endTok (rem.drop p) = some q) :
    form1 (fuel + 1) rem rel =
      rem.take p ++
        (if rel then ((rem.drop p).drop relTok.length).take (q - relTok.length) else []) ++
        form1 fuel ((rem.drop p).drop (q + endTok.length)) rel := by
  simp only [form1, h1, h2]

theorem form1_no_tok {rem : Str} (h : findSub relTok rem = none) (fuel : Nat) (rel : Bool) :
    form1 fuel rem rel = rem := by
  cases fuel with
  | zero => rfl
  | succ f => simp only [form1, h]

theorem form2_step_found (fuel : Nat) (rem : Str) (rel : Bool) (p e q : Nat)
    (h1 : findSub buildRelTok rem = some p) (h2 : findSub elseTok (rem.drop p) = some e)
    (h3 : findSub endTok ((rem.drop p).drop e) = some q) :
    form2 (fuel + 1) rem rel =
      rem.take p ++
        (if rel then
          ((rem.drop p).drop buildRelTok.length).take (e - buildRelTok.length)
        else
          (((rem.drop p).drop e).drop elseTok.length).take (q - elseTok.length)) ++
        form2 fuel (((rem.drop p).drop e).drop (q + endTok.length)) rel := by
  simp only [form2, h1, h2, h3]

theorem form2_no_tok {rem : Str} (h : findSub buildRelTok rem = none) (fuel : Nat) (rel : Bool) :
    form2 fuel rem rel = rem := by
  cases fuel with
  | zero => rfl
  | succ f => simp only [form2, h]

theorem form1_single (fuel : Nat) (a c b : Str) (rel : Bool)
    (ha : '{' ∉ a) (hc : '{' ∉ c) (hb : '{' ∉ b) :
    form1 (fuel + 1) (a ++ (relTok ++ (c ++ (endTok ++ b)))) rel =
      a ++ ((if rel then c else []) ++ b) := by
  have hA : findSub relTok (a ++ (relTok ++ (c ++ (endTok ++ b)))) = some a.length :=
    findSub_block (noMatchIn_of_brace_free relTok_head ha) _
  have hdropA : (a ++ (relTok ++ (c ++ (endTok ++ b)))).drop a.length
      = relTok ++ (c ++ (endTok ++ b)) := List.drop_left a _
  have hC : findSub endTok (relTok ++ (c ++ (endTok ++ b)))
      = some (relTok.length + c.length) := by
    have h := findSub_block
      (noMatchIn_append nm_endTok_relTok (noMatchIn_of_brace_free endTok_head hc)) b
    rw [List.append_assoc] at h
    rw [h, List.length_append]
  rw [form1_step_found fuel _ rel a.length (relTok.length + c.length) hA (by rw [hdropA, hC])]
  rw [List.take_left, hdropA, List.drop_left]
  have hcontent : List.take (relTok.length + c.length - relTok.length) (c ++ (endTok ++ b)) = c := by
    rw [Nat.add_sub_cancel_left, List.take_left]
  have hrest : List.drop (relTok.length + c.length + endTok.length)
      (relTok ++ (c ++ (endTok ++ b))) = b := by
    have hsplit : relTok ++ (c ++ (endTok ++ b)) = (relTok ++ (c ++ endTok)) ++ b := by
      simp [List.append_assoc]
    rw [hsplit]
    exact List.drop_left' (by simp [List.length_append, Nat.add_assoc])
  rw [hcontent, hrest, form1_no_tok (findSub_none_brace_free relTok_head hb) fuel rel,
    List.append_assoc]

end TemplateLemmas

theorem form2_ifelse (fuel : Nat) (a c1 c2 b : Str) (rel : Bool)
    (ha : '{' ∉ a) (hc1 : '{' ∉ c1) (hc2 : '{' ∉ c2) (hb : '{' ∉ b) :
    form2 (fuel + 1) (a ++ (buildRelTok ++ (c1 ++ (elseTok ++ (c2 ++ (endTok ++ b)))))) rel =
      a ++ ((if rel then c1 else c2) ++ b) := by
  have hA : findSub buildRelTok
      (a ++ (buildRelTok ++ (c1 ++ (elseTok ++ (c2 ++ (endTok ++ b)))))) = some a.length :=
    findSub_block (noMatchIn_of_brace_free buildRelTok_head ha) _
  have hdropA : (a ++ (buildRelTok ++ (c1 ++ (elseTok ++ (c2 ++ (endTok ++ b)))))).drop a.length
      = buildRelTok ++ (c1 ++ (elseTok ++ (c2 ++ (endTok ++ b)))) := List.drop_left a _
  have hE : findSub elseTok (buildRelTok ++ (c1 ++ (elseTok ++ (c2 ++ (endTok ++ b)))))
      = some (buildRelTok.length + c1.length) := by
    have h := findSub_block
      (noMatchIn_append nm_elseTok_buildRelTok (noMatchIn_of_brace_free elseTok_head hc1))
      (c2 ++ (endTok ++ b))
    rw [List.append_assoc] at h
    rw [h, List.length_append]
  have hdropE : (buildRelTok ++ (c1 ++ (elseTok ++ (c2 ++ (endTok ++ b))))).drop
      (buildRelTok.length + c1.length) = elseTok ++ (c2 ++ (endTok ++ b)) := by
    have hsplit : buildRelTok ++ (c1 ++ (elseTok ++ (c2 ++ (endTok ++ b))))
        = (buildRelTok ++ c1) ++ (elseTok ++ (c2 ++ (endTok ++ b))) := by
      simp [List.append_assoc]
    rw [hsplit]
    exact List.drop_left' (by rw [List.length_append])
  have hQ : findSub endTok (elseTok ++ (c2 ++ (endTok ++ b)))
      = some (elseTok.length + c2.length) := by
    have h := findSub_block
      (noMatchIn_append nm_endTok_elseTok (noMatchIn_of_brace_free endTok_head hc2)) b
    rw [List.append_assoc] at h
    rw [h, List.length_append]
  rw [form2_step_found fuel _ rel a.length (buildRelTok.length + c1.length)
    (elseTok.length + c2.length) hA (by rw [hdropA, hE]) (by rw [hdropA, hdropE, hQ])]
  rw [List.take_left, hdropA, hdropE, List.drop_left, List.drop_left]
  have hif : List.take (buildRelTok.length + c1.length - buildRelTok.length)
      (c1 ++ (elseTok ++ (c2 ++ (endTok ++ b)))) = c1 := by
    rw [Nat.add_sub_cancel_left, List.take_left]
  have helse : List.take (elseTok.length + c2.length - elseTok.length)
      (c2 ++ (endTok ++ b)) = c2 := by
    rw [Nat.add_sub_cancel_left, List.take_left]
  have hrest : List.drop (elseTok.length + c2.length + endTok.length)
      (elseTok ++ (c2 ++ (endTok ++ b))) = b := by
    have hsplit : elseTok ++ (c2 ++ (endTok ++ b)) = (elseTok ++ (c2 ++ endTok)) ++ b := by
      simp [List.append_assoc]
    rw [hsplit]
    exact List.drop_left' (by simp [List.length_append, Nat.add_assoc])
  rw [hif, helse, hrest, form2_no_tok (findSub_none_brace_free buildRelTok_head hb) fuel rel,
    List.append_assoc]

theorem process_template_single (a c b : Str) (rel : Bool)
    (ha : '{' ∉ a) (hc : '{' ∉ c) (hb : '{' ∉ b) :
    process_template (a ++ (relTok ++ (c ++ (endTok ++ b)))) rel =
      a ++ ((if rel then c else []) ++ b) := by
  have hA : findSub relTok (a ++ (relTok ++ (c ++ (endTok ++ b)))) = some a.length :=
    findSub_block (noMatchIn_of_brace_free relTok_head ha) _
  have hcon : contains_sub (a ++ (relTok ++ (c ++ (endTok ++ b)))) relTok = true := by
    rw [contains_sub, hA]; rfl
  rw [process_template, if_pos hcon]
  have hlen : (a ++ (relTok ++ (c ++ (endTok ++ b)))).length ≠ 0 := by
    have h15 : relTok.length = 15 := rfl
    simp only [List.length_append, h15]
    omega
  obtain ⟨m, hm⟩ := Nat.exists_eq_succ_of_ne_zero hlen
  rw [hm]
  exact form1_single m a c b rel ha hc hb

theorem process_template_ifelse (a c1 c2 b : Str) (rel : Bool)
    (ha : '{' ∉ a) (hc1 : '{' ∉ c1) (hc2 : '{' ∉ c2) (hb : '{' ∉ b) :
    process_template (a ++ (buildRelTok ++ (c1 ++ (elseTok ++ (c2 ++ (endTok ++ b)))))) rel =
      a ++ ((if rel then c1 else c2) ++ b) := by
  have hnone1 : findSub relTok
      (a ++ (buildRelTok ++ (c1 ++ (elseTok ++ (c2 ++ (endTok ++ b)))))) = none := by
    apply findSub_eq_none_of_noMatch (by simp [relTok])
    exact noMatchIn_append (noMatchIn_of_brace_free relTok_head ha)
      (noMatchIn_append nm_relTok_buildRelTok
        (noMatchIn_append (noMatchIn_of_brace_free relTok_head hc1)
          (noMatchIn_append nm_relTok_elseTok
            (noMatchIn_append (noMatchIn_of_brace_free relTok_head hc2)
              (noMatchIn_append nm_relTok_endTok
                (noMatchIn_of_brace_free relTok_head hb))))))
  have hA : findSub buildRelTok
      (a ++ (buildRelTok ++ (c1 ++ (elseTok ++ (c2 ++ (endTok ++ b)))))) = some a.length :=
    findSub_block (noMatchIn_of_brace_free buildRelTok_head ha) _
  have hcon1 : contains_sub (a ++ (buildRelTok ++ (c1 ++ (elseTok ++ (c2 ++ (endTok ++ b))))))
      relTok = false := by
    rw [contains_sub, hnone1]; rfl
  have hcon2 : contains_sub (a ++ (buildRelTok ++ (c1 ++ (elseTok ++ (c2 ++ (endTok ++ b))))))
      buildRelTok = true := by
    rw [contains_sub, hA]; rfl
  rw [process_template, if_neg (by rw [hcon1]; exact Bool.false_ne_true), if_pos hcon2]
  have hlen : (a ++ (buildRelTok ++ (c1 ++ (elseTok ++ (c2 ++ (endTok ++ b)))))).length ≠ 0 := by
    have h21 : buildRelTok.length = 21 := rfl
    simp only [List.length_append, h21]
    omega
  obtain ⟨m, hm⟩ := Nat.exists_eq_succ_of_ne_zero hlen
  rw [hm]
  exact form2_ifelse m a c1 c2 b rel ha hc1 hc2 hb

theorem process_template_no_markup {t : Str} (rel : Bool)
    (h1 : findSub relTok t = none) (h2 : findSub buildRelTok t = none) :
    process_template t rel = t := by
  simp [process_template, contains_sub, h1, h2]

/-- `ChangeTag` of the `similar` crate, as stored in `DiffLine`. -/
inductive ChangeTag where
  | Delete
  | Insert
  | Equal
deriving DecidableEq

/-- `DiffLine` from src/test.rs. -/
structure DiffLine where
  tag : ChangeTag
  content : Str
deriving DecidableEq

/-- `BuildConfig` from src/test.rs. -/
structure BuildConfig where
  release : Bool
  pre_build_commands : Option (List Str)
deriving DecidableEq

/-- `TestCase` from src/test.rs. -/
structure TestCase where
  name : Str
  command : Str
  args : Option (List Str)
  input : Option Str
  expected_output : Str
  timeout_secs : Option Nat
  build : Option BuildConfig
deriving DecidableEq

/-- `TestConfig` from src/test.rs. -/
structure TestConfig where
  tests : List TestCase
  build : Option BuildConfig
deriving DecidableEq

/-- `TestResult` from src/test.rs.  `execution_time` is kept abstract as the
number reported by the execution environment. -/
structure TestResult where
  name : Str
  success : Bool
  actual_output : Str
  diff : Option (List DiffLine)
  command : Str
  args : List Str
  input : Option Str
  execution_time : Nat
  is_release : Bool
  build_commands : Option (List Str)
deriving DecidableEq

/-- Outcome of spawning one test subprocess, as observed by `run_tests`:
spawn failure, stdin write failure, timeout (the `wait_timeout` poll returned
`None`), or normal completion with captured stdout and elapsed time. -/
inductive ExecResult where
  | spawnFail
  | stdinFail
  | timedOut
  | done (stdout : Str) (timeMs : Nat)
deriving DecidableEq

/-- Oracles for everything outside the core: the shell used for pre-build
commands (`sh -c cmd`; `none` = spawn failure, `some ok` = exit status), the
direct spawning of a test command with its argument vector, stdin payload and
timeout, and the external `similar` line diff. -/
structure Env where
  shell : Str → Option Bool
  exec : Str → List Str → Option Str → Nat → ExecResult
  diff : Str → Str → List DiffLine

/-- The `for cmd_template in commands` loop shared by `run_pre_build_commands`:
render each command through `process_template` with the given release flag and
run it via the shell; abort on spawn failure or non-zero exit. -/
def run_command_list (env : Env) (release : Bool) : List Str → Except Str Unit
  | [] => .ok ()
  | cmd_template :: rest =>
    let cmd := process_template cmd_template release
    match env.shell cmd with
    | none => .error ("Failed to execute pre-build command: ".data ++ cmd)
    | some true => run_command_list env release rest
    | some false => .error ("Pre-build command failed: ".data ++ cmd)

/-- The per-test variant (`run_test_build_commands` in src/test.rs), whose only
difference is the error message naming the test. -/
def run_test_command_list (env : Env) (name : Str) (release : Bool) :
    List Str → Except Str Unit
  | [] => .ok ()
  | cmd_template :: rest =>
    let cmd := process_template cmd_template release
    match env.shell cmd with
    | none => .error ("Failed to execute pre-build command: ".data ++ cmd)
    | some true => run_test_command_list env name release rest
    | some false =>
      .error (("Pre-build command failed for test '".data ++ name) ++ ("': ".data ++ cmd))

/-- `run_pre_build_commands` from src/test.rs. -/
def run_pre_build_commands (env : Env) (config : TestConfig) : Except Str Unit :=
  match config.build with
  | some build =>
    match build.pre_build_commands with
    | some commands => run_command_list env build.release commands
    | none => .ok ()
  | none => .ok ()

/-- `run_test_build_commands` from src/test.rs. -/
def run_test_build_commands (env : Env) (test : TestCase) (build : BuildConfig) :
    Except Str Unit :=
  match build.pre_build_commands with
  | some commands => run_test_command_list env test.name build.release commands
  | none => .ok ()

/-- The per-test build step of the `run_tests` loop:
`if let Some(build) = &test.build { run_test_build_commands(test, build)? }`. -/
def test_build_step (env : Env) (test : TestCase) : Except Str Unit :=
  match test.build with
  | some build => run_test_build_commands env test build
  | none => .ok ()

/-- `let is_release = test.build.as_ref().map_or(global_release, |b| b.release)`. -/
def effective_release (global_release : Bool) (test : TestCase) : Bool :=
  (test.build.map (·.release)).getD global_release

/-- The processed argument vector: each configured argument rendered through
`process_template` with the effective release flag (the command itself is not
rendered in src/test.rs). -/
def processed_args (global_release : Bool) (test : TestCase) : List Str :=
  match test.args with
  | some args => args.map (fun arg => process_template arg (effective_release global_release test))
  | none => []

/-- `actual_output.trim() == test.expected_output.trim()` from src/test.rs. -/
def output_matches (expected actual : Str) : Bool :=
  trimChars actual == trimChars expected

/-- One iteration of the `for test in &config.tests` loop of `run_tests`. -/
def run_one_test (env : Env) (global_release : Bool) (test : TestCase) :
    Except Str TestResult :=
  (test_build_step env test).bind fun _ =>
    match env.exec test.command (processed_args global_release test) test.input
        (test.timeout_secs.getD 30) with
    | .spawnFail => .error ("Failed to spawn command: ".data ++ test.command)
    | .stdinFail => .error "Failed to write to stdin".data
    | .timedOut => .error ("Command timed out: ".data ++ test.name)
    | .done stdout timeMs =>
      let success := output_matches test.expected_output stdout
      .ok { name := test.name
            success := success
            actual_output := stdout
            diff := if ¬success then some (env.diff test.expected_output stdout) else none
            command := test.command
            args := processed_args global_release test
            input := test.input
            execution_time := timeMs
            is_release := effective_release global_release test
            build_commands := test.build.bind (·.pre_build_commands) }

/-- The result-accumulating loop of `run_tests`. -/
def run_tests_list (env : Env) (global_release : Bool) : List TestCase →
    Except Str (List TestResult)
  | [] => .ok []
  | test :: rest =>
    (run_one_test env global_release test).bind fun r =>
      (run_tests_list env global_release rest).bind fun rs =>
        .ok (r :: rs)

/-- `let global_release = config.build.as_ref().map_or(false, |b| b.release)`. -/
def global_release (config : TestConfig) : Bool :=
  (config.build.map (·.release)).getD false

/-- `run_tests` from src/test.rs: run the global pre-build commands, then every
test case in order; any infrastructure failure aborts the whole run with an
error and no results. -/
def run_tests (env : Env) (config : TestConfig) : Except Str (List TestResult) :=
  (run_pre_build_commands env config).bind fun _ =>
    run_tests_list env (global_release config) config.tests

/-- `TestHistory` from src/app.rs: timestamped snapshot of a result list plus
the release-mode flag recorded with it. -/
structure TestHistory where
  timestamp : Nat
  test_results : List TestResult
  release_mode : Bool
deriving DecidableEq

/-- The fields of `App` (src/app.rs) that the history / selection logic reads
or writes; pure popup bookkeeping is omitted. -/
structure App where
  test_results : List TestResult
  config : TestConfig
  selected_test : Nat
  tab_index : Nat
  release_mode : Bool
  history : List TestHistory
  selected_history : Nat
  viewing_history : Bool
deriving DecidableEq

/-- `App::new`: seeds the history with the initial result set, timestamped at
construction, with `release_mode: false`. -/
def App.new (now : Nat) (test_results : List TestResult) (config : TestConfig) : App :=
  { test_results := test_results
    config := config
    selected_test := 0
    tab_index := 0
    release_mode := false
    history := [{ timestamp := now, test_results := test_results, release_mode := false }]
    selected_history := 0
    viewing_history := false }

/-- `App::next`. -/
def App.next (s : App) : App :=
  if s.test_results.isEmpty then s
  else { s with selected_test := (s.selected_test + 1) % s.test_results.length }

/-- `App::previous`. -/
def App.previous (s : App) : App :=
  if s.test_results.isEmpty then s
  else { s with selected_test :=
          if s.selected_test > 0 then s.selected_test - 1 else s.test_results.length - 1 }

/-- `App::add_to_history`: pushes a snapshot of the *currently displayed*
results and release flag, and selects the new entry. -/
def App.add_to_history (s : App) (now : Nat) : App :=
  let entry : TestHistory :=
    { timestamp := now, test_results := s.test_results, release_mode := s.release_mode }
  { s with history := s.history ++ [entry], selected_history := (s.history ++ [entry]).length - 1 }

/-- `App::next_history`: advance the selection circularly and load that
entry's snapshot into the displayed state. -/
def App.next_history (s : App) : App :=
  if s.history.isEmpty then s
  else
    let sel := (s.selected_history + 1) % s.history.length
    match s.history.get? sel with
    | some h => { s with selected_history := sel, test_results := h.test_results,
                         release_mode := h.release_mode }
    | none => { s with selected_history := sel }

/-- `App::previous_history`. -/
def App.previous_history (s : App) : App :=
  if s.history.isEmpty then s
  else
    let sel := if s.selected_history > 0 then s.selected_history - 1 else s.history.length - 1
    match s.history.get? sel with
    | some h => { s with selected_history := sel, test_results := h.test_results,
                         release_mode := h.release_mode }
    | none => { s with selected_history := sel }

/-- `App::reset_ui_state`: clamp an out-of-range selection back to 0, return
to the results tab and leave history-viewing mode. -/
def App.reset_ui_state (s : App) : App :=
  let s1 := if ¬s.test_results.isEmpty ∧ s.test_results.length ≤ s.selected_test
            then { s with selected_test := 0 } else s
  { s1 with tab_index := 0, viewing_history := false }

/-- `App::get_command_details`: `None` on an empty result list, else the
fields of `self.test_results[self.selected_test]` (an index the Rust code
takes without a bounds check; `List.get?` makes the out-of-range case
observable as `none`). -/
def App.get_command_details (s : App) :
    Option (Str × List Str × Option Str × Nat × Bool × Option (List Str)) :=
  if s.test_results.isEmpty then none
  else
    match s.test_results.get? s.selected_test with
    | some t => some (t.command, t.args, t.input, t.execution_time, t.is_release,
                      t.build_commands)
    | none => none

/-- The `Enter`-on-history-tab handler in src/main.rs: load the selected
history entry into the displayed state and switch to the results tab. -/
def App.load_selected_history (s : App) : App :=
  match s.history.get? s.selected_history with
  | some h => { s with test_results := h.test_results, release_mode := h.release_mode,
                       tab_index := 0 }
  | none => s

/-- The successful-rerun path of the main loop (src/main.rs, `PopupType::RunTests`
confirmed, `run_tests` returned `Ok(results)`): `add_to_history()` first, then
install the new results, then `reset_ui_state()`. -/
def App.apply_run_ok (s : App) (now : Nat) (results : List TestResult) : App :=
  App.reset_ui_state { s.add_to_history now with test_results := results }

section EngineLemmas

theorem run_one_test_ok {env : Env} {gr : Bool} {test : TestCase} {r : TestResult}
    (h : run_one_test env gr test = .ok r) :
    r.name = test.name ∧
    r.command = test.command ∧
    r.args = processed_args gr test ∧
    r.input = test.input ∧
    r.is_release = effective_release gr test ∧
    r.build_commands = test.build.bind (·.pre_build_commands) ∧
    r.diff.isNone = r.success ∧
    r.success = output_matches test.expected_output r.actual_output := by
  unfold run_one_test at h
  cases hb : test_build_step env test with
  | error e => rw [hb] at h; simp [Except.bind] at h
  | ok u =>
    rw [hb] at h
    simp only [Except.bind] at h
    cases hx : env.exec test.command (processed_args gr test) test.input
        (test.timeout_secs.getD 30) with
    | spawnFail => rw [hx] at h; simp at h
    | stdinFail => rw [hx] at h; simp at h
    | timedOut => rw [hx] at h; simp at h
    | done stdout timeMs =>
      rw [hx] at h
      simp only [Except.ok.injEq] at h
      subst h
      refine ⟨rfl, rfl, rfl, rfl, rfl, rfl, ?_, rfl⟩
      cases hout : output_matches test.expected_output stdout <;> simp [hout]

theorem run_tests_list_ok {env : Env} {gr : Bool} :
    ∀ {ts : List TestCase} {rs : List TestResult}, run_tests_list env gr ts = .ok rs →
      List.Forall₂ (fun t r => run_one_test env gr t = .ok r) ts rs := by
  intro ts
  induction ts with
  | nil =>
    intro rs h
    simp only [run_tests_list, Except.ok.injEq] at h
    subst h
    exact .nil
  | cons t ts ih =>
    intro rs h
    unfold run_tests_list at h
    cases h1 : run_one_test env gr t with
    | error e => rw [h1] at h; simp [Except.bind] at h
    | ok r =>
      rw [h1] at h
      simp only [Except.bind] at h
      cases h2 : run_tests_list env gr ts with
      | error e => rw [h2] at h; simp [Except.bind] at h
      | ok rs' =>
        rw [h2] at h
        simp only [Except.bind, Except.ok.injEq] at h
        subst h
        exact List.Forall₂.cons h1 (ih h2)

theorem run_tests_ok {env : Env} {config : TestConfig} {rs : List TestResult}
    (h : run_tests env config = .ok rs) :
    run_pre_build_commands env config = .ok () ∧
    run_tests_list env (global_release config) config.tests = .ok rs := by
  unfold run_tests at h
  cases hp : run_pre_build_commands env config with
  | error e => rw [hp] at h; simp [Except.bind] at h
  | ok u =>
    cases u
    rw [hp] at h
    simp only [Except.bind] at h
    exact ⟨rfl, h⟩

theorem forall₂_mem_right {α β : Type _} {P : α → β → Prop} :
    ∀ {ts : List α} {rs : List β}, List.Forall₂ P ts rs →
      ∀ {r}, r ∈ rs → ∃ t, t ∈ ts ∧ P t r := by
  intro ts rs h
  induction h with
  | nil => intro r hr; simp at hr
  | @cons t r ts' rs' hpr htail ih =>
    intro r' hr'
    rcases List.mem_cons.1 hr' with rfl | hmem
    · exact ⟨t, List.mem_cons_self t ts', hpr⟩
    · obtain ⟨t', ht', hp⟩ := ih hmem
      exact ⟨t', List.mem_cons_of_mem t ht', hp⟩

theorem run_tests_list_append_error {env : Env} {gr : Bool} {pre : List TestCase}
    (hok : ∀ t' ∈ pre, ∃ r, run_one_test env gr t' = .ok r)
    {t : TestCase} {rest : List TestCase} {e : Str}
    (herr : run_one_test env gr t = .error e) :
    run_tests_list env gr (pre ++ t :: rest) = .error e := by
  induction pre with
  | nil => simp [run_tests_list, herr, Except.bind]
  | cons p pre' ih =>
    obtain ⟨r, hr⟩ := hok p (List.mem_cons_self p pre')
    have hok' : ∀ t' ∈ pre', ∃ r, run_one_test env gr t' = .ok r :=
      fun t' ht' => hok t' (List.mem_cons_of_mem p ht')
    rw [List.cons_append]
    unfold run_tests_list
    rw [hr]
    simp only [Except.bind]
    rw [ih hok']

end EngineLemmas

section AppLemmas

/-- The representation invariant of `App` that the selection/history
operations maintain: the selected test indexes into the displayed results
whenever they are non-empty, and every history snapshot has the same number
of results as the displayed list (true of every state the program reaches,
since every run produces one result per configured test). -/
def AppInv (s : App) : Prop :=
  (s.test_results ≠ [] → s.selected_test < s.test_results.length) ∧
  (∀ h ∈ s.history, h.test_results.length = s.test_results.length)

theorem isEmpty_false_ne {α : Type _} {l : List α} (h : l.isEmpty = false) : l ≠ [] := by
  intro hnil
  rw [hnil] at h
  simp at h

theorem appInv_new (now : Nat) (rs : List TestResult) (cfg : TestConfig) :
    AppInv (App.new now rs cfg) := by
  constructor
  · intro hne
    exact List.length_pos.mpr hne
  · intro h hh
    simp only [App.new, List.mem_singleton] at hh
    subst hh
    rfl

theorem appInv_next {s : App} (h : AppInv s) : AppInv s.next := by
  unfold App.next
  cases hE : s.test_results.isEmpty with
  | true => exact h
  | false =>
    refine ⟨fun _ => ?_, h.2⟩
    show (s.selected_test + 1) % s.test_results.length < s.test_results.length
    exact Nat.mod_lt _ (List.length_pos.mpr (isEmpty_false_ne hE))

theorem appInv_previous {s : App} (h : AppInv s) : AppInv s.previous := by
  unfold App.previous
  cases hE : s.test_results.isEmpty with
  | true => exact h
  | false =>
    have hne := isEmpty_false_ne hE
    have hlen := List.length_pos.mpr hne
    have hsel := h.1 hne
    refine ⟨fun _ => ?_, h.2⟩
    show (if s.selected_test > 0 then s.selected_test - 1 else s.test_results.length - 1)
      < s.test_results.length
    by_cases h0 : s.selected_test > 0
    · rw [if_pos h0]; omega
    · rw [if_neg h0]; omega

theorem appInv_load {s : App} (h : AppInv s) {sel : Nat} {hh : TestHistory}
    (hget : s.history.get? sel = some hh) :
    AppInv { s with selected_history := sel, test_results := hh.test_results,
                    release_mode := hh.release_mode } := by
  have hmem : hh ∈ s.history := List.get?_mem hget
  have hlen : hh.test_results.length = s.test_results.length := h.2 hh hmem
  constructor
  · intro hne
    have hne2 : hh.test_results ≠ [] := hne
    have hpos : 0 < hh.test_results.length := List.length_pos.mpr hne2
    have hne3 : s.test_results ≠ [] := by
      intro h0
      rw [h0] at hlen
      simp only [List.length_nil] at hlen
      omega
    have hsel := h.1 hne3
    show s.selected_test < hh.test_results.length
    omega
  · intro h' hmem'
    have hmem2 : h' ∈ s.history := hmem'
    have := h.2 h' hmem2
    show h'.test_results.length = hh.test_results.length
    omega

theorem appInv_select_load {s : App} (h : AppInv s) (sel : Nat) :
    AppInv (match s.history.get? sel with
      | some hh => { s with selected_history := sel, test_results := hh.test_results,
                            release_mode := hh.release_mode }
      | none => { s with selected_history := sel }) := by
  cases hget : s.history.get? sel with
  | some hh => exact appInv_load h hget
  | none => exact ⟨h.1, h.2⟩

theorem appInv_next_history {s : App} (h : AppInv s) : AppInv s.next_history := by
  unfold App.next_history
  cases hE : s.history.isEmpty with
  | true => exact h
  | false => exact appInv_select_load h ((s.selected_history + 1) % s.history.length)

theorem appInv_previous_history {s : App} (h : AppInv s) : AppInv s.previous_history := by
  unfold App.previous_history
  cases hE : s.history.isEmpty with
  | true => exact h
  | false =>
    exact appInv_select_load h
      (if s.selected_history > 0 then s.selected_history - 1 else s.history.length - 1)

theorem appInv_load_selected {s : App} (h : AppInv s) : AppInv s.load_selected_history := by
  unfold App.load_selected_history
  cases hget : s.history.get? s.selected_history with
  | some hh => exact appInv_load h hget
  | none => exact h

theorem appInv_reset {s : App} (h : AppInv s) : AppInv s.reset_ui_state := by
  unfold App.reset_ui_state
  by_cases hcond : ¬s.test_results.isEmpty ∧ s.test_results.length ≤ s.selected_test
  · rw [if_pos hcond]
    exact ⟨fun hne => List.length_pos.mpr hne, h.2⟩
  · rw [if_neg hcond]
    exact ⟨h.1, h.2⟩

theorem get_command_details_isSome {s : App} (h : AppInv s) (hne : s.test_results ≠ []) :
    s.get_command_details.isSome = true := by
  unfold App.get_command_details
  rw [if_neg (by simpa [List.isEmpty_iff] using hne)]
  rw [List.get?_eq_get (h.1 hne)]
  rfl

end AppLemmas

section HistoryLemmas

theorem isEmpty_false_of_ne {α : Type _} {l : List α} (h : l ≠ []) : l.isEmpty = false := by
  cases h2 : l.isEmpty with
  | false => rfl
  | true => exact absurd (List.isEmpty_iff.mp h2) h

theorem apply_run_ok_fields (s : App) (now : Nat) (results : List TestResult) :
    (s.apply_run_ok now results).history =
      s.history ++ [{ timestamp := now, test_results := s.test_results,
                      release_mode := s.release_mode }] ∧
    (s.apply_run_ok now results).test_results = results := by
  constructor <;>
  · unfold App.apply_run_ok App.reset_ui_state App.add_to_history
    split <;> rfl

theorem foldl_run_history_length (runs : List (Nat × List TestResult)) :
    ∀ s : App, (runs.foldl (fun s p => s.apply_run_ok p.1 p.2) s).history.length
      = s.history.length + runs.length := by
  induction runs with
  | nil => intro s; simp
  | cons p runs ih =>
    intro s
    rw [List.foldl_cons, ih]
    have hlen : (s.apply_run_ok p.1 p.2).history.length = s.history.length + 1 := by
      rw [(apply_run_ok_fields s p.1 p.2).1]
      simp
    rw [hlen, List.length_cons]
    omega

theorem select_load_fields (s : App) (sel : Nat) :
    (match s.history.get? sel with
      | some hh => { s with selected_history := sel, test_results := hh.test_results,
                            release_mode := hh.release_mode }
      | none => { s with selected_history := sel }).history = s.history ∧
    (match s.history.get? sel with
      | some hh => { s with selected_history := sel, test_results := hh.test_results,
                            release_mode := hh.release_mode }
      | none => { s with selected_history := sel }).selected_history = sel := by
  cases s.history.get? sel <;> exact ⟨rfl, rfl⟩

theorem next_history_props (s : App) (hne : s.history ≠ []) :
    s.next_history.history = s.history ∧
    s.next_history.selected_history = (s.selected_history + 1) % s.history.length := by
  have hE := isEmpty_false_of_ne hne
  unfold App.next_history
  rw [if_neg (by rw [hE]; exact Bool.false_ne_true)]
  exact select_load_fields s ((s.selected_history + 1) % s.history.length)

theorem previous_history_props (s : App) (hne : s.history ≠ [])
    (hsel : s.selected_history < s.history.length) :
    s.previous_history.history = s.history ∧
    s.previous_history.selected_history =
      (s.selected_history + s.history.length - 1) % s.history.length := by
  have hE := isEmpty_false_of_ne hne
  have hlen : 0 < s.history.length := List.length_pos.mpr hne
  have base := select_load_fields s
    (if s.selected_history > 0 then s.selected_history - 1 else s.history.length - 1)
  unfold App.previous_history
  rw [if_neg (by rw [hE]; exact Bool.false_ne_true)]
  refine ⟨base.1, ?_⟩
  rw [base.2]
  by_cases h0 : s.selected_history > 0
  · rw [if_pos h0]
    have harith : s.selected_history + s.history.length - 1
        = (s.selected_history - 1) + s.history.length := by omega
    rw [harith, Nat.add_mod_right, Nat.mod_eq_of_lt (by omega)]
  · rw [if_neg h0]
    have h00 : s.selected_history = 0 := by omega
    rw [h00, Nat.zero_add, Nat.mod_eq_of_lt (by omega)]

end HistoryLemmas

/-- Environment in which every shell command succeeds and every spawned test
process completes immediately with empty stdout. -/
def env_done : Env :=
  { shell := fun _ => some true
    exec := fun _ _ _ _ => .done [] 0
    diff := fun _ _ => [] }

/-- Environment in which every spawned test process times out. -/
def env_timeout : Env :=
  { shell := fun _ => some true
    exec := fun _ _ _ _ => .timedOut
    diff := fun _ _ => [] }

/-- A command string that is itself a template. -/
def c1_cmd : Str := "\x7b\x7b#if release\x7d\x7dx\x7b\x7b/if\x7d\x7d".data

/-- Test case whose command and single argument both carry release markup. -/
def c1_test : TestCase :=
  { name := "t".data
    command := c1_cmd
    args := some ["\x7b\x7b#if release\x7d\x7d--release\x7b\x7b/if\x7d\x7d".data]
    input := none
    expected_output := []
    timeout_secs := none
    build := none }

/-- Configuration running `c1_test` with a global release build. -/
def c1_config : TestConfig :=
  { tests := [c1_test], build := some { release := true, pre_build_commands := none } }

/-- The result `run_tests env_done c1_config` actually produces. -/
def c1_result : TestResult :=
  { name := "t".data
    success := true
    actual_output := []
    diff := none
    command := c1_cmd
    args := ["--release".data]
    input := none
    execution_time := 0
    is_release := true
    build_commands := none }

/-- C1, counterexample: the command stored in the `TestResult` (and passed to
the spawn) is the configured command verbatim, not `process_template` of it:
with the release flag effective and the command string
`{{#if release}}x{{/if}}`, the stored command still carries the markup while
`process_template` of it is `x`. -/
theorem c1_counterexample :
    run_tests env_done c1_config = .ok [c1_result] ∧
    c1_result.command = c1_cmd ∧
    process_template c1_cmd true = "x".data ∧
    c1_result.command ≠ process_template c1_cmd true :=
  ⟨rfl, rfl, by decide, by decide⟩

/-- C1 (amended): for every successfully completing run, each produced
`TestResult` records the argument vector obtained by resolving every
configured argument through `process_template` with the effective release
flag (the same vector handed to the spawned process), while the command is
passed to the spawn and recorded verbatim, without template resolution. -/
theorem c1_args_resolved_command_verbatim (env : Env) (config : TestConfig)
    (rs : List TestResult) (h : run_tests env config = .ok rs) :
    List.Forall₂ (fun t r => r.command = t.command ∧
      r.args = processed_args (global_release config) t) config.tests rs :=
  List.Forall₂.imp (fun _ _ hok => ⟨(run_one_test_ok hok).2.1, (run_one_test_ok hok).2.2.1⟩)
    (run_tests_list_ok (run_tests_ok h).2)

/-- Witness for C1's amended theorem at the concrete run
`run_tests env_done c1_config = .ok [c1_result]`. -/
theorem c1_witness :
    List.Forall₂ (fun t r => r.command = t.command ∧
      r.args = processed_args (global_release c1_config) t) c1_config.tests [c1_result] :=
  c1_args_resolved_command_verbatim env_done c1_config [c1_result] rfl

/-- A minimal successful test result (used as concrete app-state fixture). -/
def rA : TestResult :=
  { name := "a".data, success := true, actual_output := [], diff := none, command := [],
    args := [], input := none, execution_time := 0, is_release := false, build_commands := none }

/-- A second, distinct test result. -/
def rB : TestResult :=
  { name := "b".data, success := true, actual_output := [], diff := none, command := [],
    args := [], input := none, execution_time := 0, is_release := false, build_commands := none }

/-- An empty configuration. -/
def cfg0 : TestConfig := { tests := [], build := none }

/-- C2, counterexample: `add_to_history` runs before the new results are
installed, so after a successful rerun producing `[rB]` from a state
displaying `[rA]`, the appended history entry stores `[rA]` — not the result
sequence `[rB]` that the invocation produced. -/
theorem c2_counterexample :
    ((App.new 0 [rA] cfg0).apply_run_ok 1 [rB]).history.get? 1 =
      some { timestamp := 1, test_results := [rA], release_mode := false } ∧
    ((App.new 0 [rA] cfg0).apply_run_ok 1 [rB]).test_results = [rB] ∧
    ([rA] : List TestResult) ≠ [rB] :=
  ⟨rfl, rfl, by decide⟩

/-- C2 (amended): every successful invocation of the test run appends exactly
one `TestHistory` entry, and that entry snapshots the result sequence and
release flag that were displayed *before* the new results are installed (the
previous run's snapshot), while the new results replace the displayed list. -/
theorem c2_history_snapshot (s : App) (now : Nat) (results : List TestResult) :
    (s.apply_run_ok now results).history =
      s.history ++ [{ timestamp := now, test_results := s.test_results,
                      release_mode := s.release_mode }] ∧
    (s.apply_run_ok now results).history.length = s.history.length + 1 ∧
    (s.apply_run_ok now results).test_results = results :=
  ⟨(apply_run_ok_fields s now results).1,
   by rw [(apply_run_ok_fields s now results).1]; simp,
   (apply_run_ok_fields s now results).2⟩

/-- C3: in every result list a completed run returns, the `diff` field is
present exactly when the `success` flag is false:
`r.diff.isNone = r.success`. -/
theorem c3_diff_absence (env : Env) (config : TestConfig) (rs : List TestResult)
    (h : run_tests env config = .ok rs) :
    ∀ r ∈ rs, r.diff.isNone = r.success := by
  intro r hr
  obtain ⟨t, _, hok⟩ := forall₂_mem_right (run_tests_list_ok (run_tests_ok h).2) hr
  exact (run_one_test_ok hok).2.2.2.2.2.2.1

/-- Witness for C3 at the concrete run `run_tests env_done c1_config`. -/
theorem c3_witness : c1_result.diff.isNone = c1_result.success :=
  c3_diff_absence env_done c1_config [c1_result] rfl c1_result (List.mem_singleton.mpr rfl)

/-- C4: output comparison succeeds exactly when the two strings agree after
trimming leading/trailing whitespace of the whole string; in particular
`compare "abc\n" "abc"` succeeds and `compare "a b" "ab"` fails; and every
produced result's `success` flag is exactly this comparison of its expected
and actual output. -/
theorem c4_comparison_semantics :
    (∀ expected actual : Str,
      output_matches expected actual = true ↔ trimChars expected = trimChars actual) ∧
    output_matches "abc\n".data "abc".data = true ∧
    output_matches "a b".data "ab".data = false ∧
    ∀ (env : Env) (config : TestConfig) (rs : List TestResult), run_tests env config = .ok rs →
      List.Forall₂ (fun t r => r.success = output_matches t.expected_output r.actual_output)
        config.tests rs := by
  refine ⟨?_, by decide, by decide, ?_⟩
  · intro e a
    unfold output_matches
    rw [beq_iff_eq]
    exact eq_comm
  · intro env config rs h
    exact List.Forall₂.imp (fun _ _ hok => (run_one_test_ok hok).2.2.2.2.2.2.2)
      (run_tests_list_ok (run_tests_ok h).2)

/-- Witness for C4's run-linked part at the concrete run
`run_tests env_done c1_config`. -/
theorem c4_witness :
    List.Forall₂ (fun t r => r.success = output_matches t.expected_output r.actual_output)
      c1_config.tests [c1_result] :=
  c4_comparison_semantics.2.2.2 env_done c1_config [c1_result] rfl

/-- C5: template substitution semantics — a single-branch template keeps the
bracketed content verbatim under the release flag and drops the whole region
(substituting nothing) otherwise; an if/else template keeps exactly the
selected branch's content for either flag; strings without recognized markup
are returned unchanged. -/
theorem c5_template_semantics :
    (∀ a c b : Str, '{' ∉ a → '{' ∉ c → '{' ∉ b →
      process_template (a ++ (relTok ++ (c ++ (endTok ++ b)))) true = a ++ (c ++ b) ∧
      process_template (a ++ (relTok ++ (c ++ (endTok ++ b)))) false = a ++ b) ∧
    (∀ a c1 c2 b : Str, '{' ∉ a → '{' ∉ c1 → '{' ∉ c2 → '{' ∉ b → ∀ rel : Bool,
      process_template (a ++ (buildRelTok ++ (c1 ++ (elseTok ++ (c2 ++ (endTok ++ b)))))) rel =
        a ++ ((if rel then c1 else c2) ++ b)) ∧
    (∀ (t : Str) (rel : Bool), findSub relTok t = none → findSub buildRelTok t = none →
      process_template t rel = t) := by
  refine ⟨?_, ?_, ?_⟩
  · intro a c b ha hc hb
    constructor
    · have h := process_template_single a c b true ha hc hb
      simpa using h
    · have h := process_template_single a c b false ha hc hb
      simpa using h
  · intro a c1 c2 b ha hc1 hc2 hb rel
    exact process_template_ifelse a c1 c2 b rel ha hc1 hc2 hb
  · intro t rel h1 h2
    exact process_template_no_markup rel h1 h2

/-- Witness for C5 at concrete strings: `cargo {{#if release}}--release{{/if}} build`
under both flags and an if/else target name. -/
theorem c5_witness :
    (process_template ("cargo ".data ++ (relTok ++ ("--release".data ++ (endTok ++ " build".data))))
        true = "cargo ".data ++ ("--release".data ++ " build".data) ∧
      process_template ("cargo ".data ++ (relTok ++ ("--release".data ++ (endTok ++ " build".data))))
        false = "cargo ".data ++ " build".data) ∧
    process_template
        ("target/".data ++ (buildRelTok ++ ("release".data ++ (elseTok ++ ("debug".data ++ (endTok ++ "/app".data))))))
        true =
      "target/".data ++ ((if true then "release".data else "debug".data) ++ "/app".data) ∧
    process_template "plain".data true = "plain".data :=
  ⟨c5_template_semantics.1 "cargo ".data "--release".data " build".data
      (by decide) (by decide) (by decide),
   c5_template_semantics.2.1 "target/".data "release".data "debug".data "/app".data
      (by decide) (by decide) (by decide) (by decide) true,
   c5_template_semantics.2.2 "plain".data true (by decide) (by decide)⟩

/-- Test case used for the timeout scenario. -/
def c6_test : TestCase :=
  { name := "slow".data, command := "sleep".data, args := none, input := none,
    expected_output := [], timeout_secs := some 1, build := none }

/-- Configuration with the single timing-out test. -/
def c6_config : TestConfig := { tests := [c6_test], build := none }

/-- C6: if (after a clean pre-build and any earlier tests completing) a
test's process is still running when its timeout (`timeout_secs`, defaulting
to 30 s) elapses, the whole run returns the error `Command timed out: <name>`
naming that test — an `Except.error`, so no partial result list is returned. -/
theorem c6_timeout_fatal (env : Env) (config : TestConfig) (pre rest : List TestCase)
    (t : TestCase)
    (hsplit : config.tests = pre ++ t :: rest)
    (hpre : run_pre_build_commands env config = .ok ())
    (hok : ∀ t' ∈ pre, ∃ r, run_one_test env (global_release config) t' = .ok r)
    (hbuild : test_build_step env t = .ok ())
    (htimeout : env.exec t.command (processed_args (global_release config) t) t.input
      (t.timeout_secs.getD 30) = .timedOut) :
    run_tests env config = .error ("Command timed out: ".data ++ t.name) := by
  have herr : run_one_test env (global_release config) t
      = .error ("Command timed out: ".data ++ t.name) := by
    unfold run_one_test
    rw [hbuild]
    simp only [Except.bind]
    rw [htimeout]
  unfold run_tests
  rw [hpre]
  simp only [Except.bind]
  rw [hsplit]
  exact run_tests_list_append_error hok herr

/-- Witness for C6 at the concrete timing-out run. -/
theorem c6_witness :
    run_tests env_timeout c6_config = .error ("Command timed out: ".data ++ c6_test.name) :=
  c6_timeout_fatal env_timeout c6_config [] [] c6_test rfl rfl (by simp) rfl rfl

/-- C7: the history list is seeded at construction with the first result set
(timestamp = construction time, release flag false); after N successful
reruns it has exactly N + 1 entries in append order; and next/previous
history navigation moves the selection circularly modulo the list length
without changing the history list itself. -/
theorem c7_history_seed_growth_navigation :
    (∀ (now : Nat) (rs : List TestResult) (cfg : TestConfig),
      (App.new now rs cfg).history =
        [{ timestamp := now, test_results := rs, release_mode := false }]) ∧
    (∀ (now : Nat) (rs : List TestResult) (cfg : TestConfig)
        (runs : List (Nat × List TestResult)),
      (runs.foldl (fun s p => s.apply_run_ok p.1 p.2) (App.new now rs cfg)).history.length
        = runs.length + 1) ∧
    (∀ s : App, s.history ≠ [] →
      s.next_history.history = s.history ∧
      s.next_history.selected_history = (s.selected_history + 1) % s.history.length) ∧
    (∀ s : App, s.history ≠ [] → s.selected_history < s.history.length →
      s.previous_history.history = s.history ∧
      s.previous_history.selected_history =
        (s.selected_history + s.history.length - 1) % s.history.length) := by
  refine ⟨fun _ _ _ => rfl, ?_, next_history_props, previous_history_props⟩
  intro now rs cfg runs
  rw [foldl_run_history_length]
  have h1 : (App.new now rs cfg).history.length = 1 := rfl
  rw [h1, Nat.add_comm]

/-- Witness for C7's navigation parts at a concrete two-entry history. -/
theorem c7_witness :
    (((App.new 0 [rA] cfg0).apply_run_ok 1 [rB]).next_history.history =
        ((App.new 0 [rA] cfg0).apply_run_ok 1 [rB]).history ∧
      ((App.new 0 [rA] cfg0).apply_run_ok 1 [rB]).next_history.selected_history =
        (((App.new 0 [rA] cfg0).apply_run_ok 1 [rB]).selected_history + 1) %
          ((App.new 0 [rA] cfg0).apply_run_ok 1 [rB]).history.length) ∧
    ((App.new 0 [rA] cfg0).apply_run_ok 1 [rB]).previous_history.history =
        ((App.new 0 [rA] cfg0).apply_run_ok 1 [rB]).history ∧
      ((App.new 0 [rA] cfg0).apply_run_ok 1 [rB]).previous_history.selected_history =
        (((App.new 0 [rA] cfg0).apply_run_ok 1 [rB]).selected_history +
            ((App.new 0 [rA] cfg0).apply_run_ok 1 [rB]).history.length - 1) %
          ((App.new 0 [rA] cfg0).apply_run_ok 1 [rB]).history.length :=
  ⟨c7_history_seed_growth_navigation.2.2.1 ((App.new 0 [rA] cfg0).apply_run_ok 1 [rB])
      (by decide),
   c7_history_seed_growth_navigation.2.2.2 ((App.new 0 [rA] cfg0).apply_run_ok 1 [rB])
      (by decide) (by decide)⟩

/-- A template mixing the two conditional forms side by side (no nesting). -/
def t_mix : Str := "\x7b\x7b#if build.release\x7d\x7da\x7b\x7belse\x7d\x7db\x7b\x7b/if\x7d\x7d\x7b\x7b#if release\x7d\x7dc\x7b\x7b/if\x7d\x7d".data

/-- C8, counterexample: substitution is not idempotent on a (non-nested)
template that mixes the two markup forms: the first pass resolves only the
`{{#if release}}` region and leaves the `{{#if build.release}}` region
intact, which the second pass then resolves. -/
theorem c8_counterexample :
    process_template t_mix true = "\x7b\x7b#if build.release\x7d\x7da\x7b\x7belse\x7d\x7db\x7b\x7b/if\x7d\x7dc".data ∧
    process_template (process_template t_mix true) true = "ac".data ∧
    process_template (process_template t_mix true) true ≠ process_template t_mix true :=
  ⟨by decide, by decide, by decide⟩

/-- C8 (amended): template substitution is idempotent for templates with no
nested markup that contain at most one of the two conditional forms: markup-
free strings, single-branch templates and if/else templates all satisfy
`substitute (substitute t b) b = substitute t b`. -/
theorem c8_idempotent_single_form :
    (∀ (t : Str) (rel : Bool), findSub relTok t = none → findSub buildRelTok t = none →
      process_template (process_template t rel) rel = process_template t rel) ∧
    (∀ (a c b : Str) (rel : Bool), '{' ∉ a → '{' ∉ c → '{' ∉ b →
      process_template (process_template (a ++ (relTok ++ (c ++ (endTok ++ b)))) rel) rel
        = process_template (a ++ (relTok ++ (c ++ (endTok ++ b)))) rel) ∧
    (∀ (a c1 c2 b : Str) (rel : Bool), '{' ∉ a → '{' ∉ c1 → '{' ∉ c2 → '{' ∉ b →
      process_template
          (process_template
            (a ++ (buildRelTok ++ (c1 ++ (elseTok ++ (c2 ++ (endTok ++ b)))))) rel) rel
        = process_template (a ++ (buildRelTok ++ (c1 ++ (elseTok ++ (c2 ++ (endTok ++ b))))))
            rel) := by
  refine ⟨?_, ?_, ?_⟩
  · intro t rel h1 h2
    rw [process_template_no_markup rel h1 h2]
    exact process_template_no_markup rel h1 h2
  · intro a c b rel ha hc hb
    rw [process_template_single a c b rel ha hc hb]
    have hmem : '{' ∉ a ++ ((if rel then c else []) ++ b) := by
      intro hmem
      rcases List.mem_append.1 hmem with h | h
      · exact ha h
      rcases List.mem_append.1 h with h | h
      · cases rel with
        | true => exact hc (by simpa using h)
        | false => simp at h
      · exact hb h
    exact process_template_no_markup rel (findSub_none_brace_free relTok_head hmem)
      (findSub_none_brace_free buildRelTok_head hmem)
  · intro a c1 c2 b rel ha hc1 hc2 hb
    rw [process_template_ifelse a c1 c2 b rel ha hc1 hc2 hb]
    have hmem : '{' ∉ a ++ ((if rel then c1 else c2) ++ b) := by
      intro hmem
      rcases List.mem_append.1 hmem with h | h
      · exact ha h
      rcases List.mem_append.1 h with h | h
      · cases rel with
        | true => exact hc1 (by simpa using h)
        | false => exact hc2 (by simpa using h)
      · exact hb h
    exact process_template_no_markup rel (findSub_none_brace_free relTok_head hmem)
      (findSub_none_brace_free buildRelTok_head hmem)

/-- Witness for C8's amended theorem at a concrete single-branch template. -/
theorem c8_witness :
    process_template
        (process_template ("x ".data ++ (relTok ++ ("y".data ++ (endTok ++ " z".data)))) true)
        true
      = process_template ("x ".data ++ (relTok ++ ("y".data ++ (endTok ++ " z".data)))) true :=
  c8_idempotent_single_form.2.1 "x ".data "y".data " z".data true
    (by decide) (by decide) (by decide)

/-- C9: the app-state invariant — the selected test indexes into the
displayed results whenever non-empty, and history snapshots match the
displayed list's length — is established by `App::new` and preserved by
`next`, `previous`, `next_history`, `previous_history`, loading the selected
history entry, and `reset_ui_state`; under it `get_command_details` never
indexes out of bounds. -/
theorem c9_selection_safety :
    (∀ (now : Nat) (rs : List TestResult) (cfg : TestConfig), AppInv (App.new now rs cfg)) ∧
    (∀ s : App, AppInv s →
      AppInv s.next ∧ AppInv s.previous ∧ AppInv s.next_history ∧
      AppInv s.previous_history ∧ AppInv s.load_selected_history ∧ AppInv s.reset_ui_state) ∧
    (∀ s : App, AppInv s → s.test_results ≠ [] → s.get_command_details.isSome = true) :=
  ⟨appInv_new,
   fun _ h => ⟨appInv_next h, appInv_previous h, appInv_next_history h,
     appInv_previous_history h, appInv_load_selected h, appInv_reset h⟩,
   fun _ h hne => get_command_details_isSome h hne⟩

/-- Witness for C9 at a concrete state: the invariant holds after `new` and
`next`, and `get_command_details` is defined there. -/
theorem c9_witness :
    AppInv (App.new 0 [rA] cfg0).next ∧
    (App.new 0 [rA] cfg0).next.get_command_details.isSome = true :=
  ⟨(c9_selection_safety.2.1 (App.new 0 [rA] cfg0) (c9_selection_safety.1 0 [rA] cfg0)).1,
   c9_selection_safety.2.2 (App.new 0 [rA] cfg0).next
     ((c9_selection_safety.2.1 (App.new 0 [rA] cfg0) (c9_selection_safety.1 0 [rA] cfg0)).1)
     (by decide)⟩

/-- C10: a configuration with no tests and no pre-build commands yields a
successful empty run in every environment (no oracle is consulted, so no
process is spawned). -/
theorem c10_empty_run (env : Env) (config : TestConfig) (htests : config.tests = [])
    (hbuild : config.build = none ∨
      ∃ b, config.build = some b ∧ b.pre_build_commands = none) :
    run_tests env config = .ok [] := by
  have hpre : run_pre_build_commands env config = .ok () := by
    rcases hbuild with h | ⟨b, hb, hc⟩
    · simp [run_pre_build_commands, h]
    · simp [run_pre_build_commands, hb, hc]
  unfold run_tests
  rw [hpre]
  simp only [Except.bind]
  rw [htests]
  rfl

/-- Witness for C10 at the concrete empty configuration. -/
theorem c10_witness : run_tests env_done cfg0 = .ok [] :=
  c10_empty_run env_done cfg0 rfl (Or.inl rfl)
